import Mathlib

/-!
Verification development for the powercalc power/energy estimation engine
(homeassistant-huepower).  The definitions below are shallow embeddings of
the relevant Python source files:

  * custom_components/powercalc/strategy/fixed.py       (FixedStrategy)
  * custom_components/powercalc/strategy/composite.py   (CompositeStrategy)
  * custom_components/powercalc/sensors/group.py        (GroupedSensor and friends)
  * custom_components/powercalc/power_profile/library.py (ProfileLibrary.find_model)
  * custom_components/powercalc/power_profile/loader/local.py  (LocalLoader.find_model)
  * custom_components/powercalc/power_profile/loader/remote.py (RemoteLoader)

Modelling conventions: Python `Decimal`/`float` values are rationals (ℚ),
Python dicts are association lists with insertion-order iteration and
overwrite-in-place update (`pyGet`/`pySet`), fallible code returns
`Option`/`Except`, and I/O results (HTTP responses, file reads) are passed
in as explicit oracle arguments.  Strings manipulated character-wise by the
source (the fixed strategy's `"attribute|value"` keys) are modelled as
`List Char`; strings only compared for equality stay `String`.
-/

namespace Powercalc

/-- `d.get(k)` on a Python dict modelled as an association list in insertion
order (keys unique): the value of the first pair whose key is `k`. -/
def pyGet [DecidableEq κ] (l : List (κ × α)) (k : κ) : Option α :=
  (l.find? (fun kv => kv.1 = k)).map (fun kv => kv.2)

/-- `d[k] = v` on a Python dict modelled as an association list: overwrite the
existing entry in place, or append a new entry at the end (insertion order). -/
def pySet [DecidableEq κ] : List (κ × α) → κ → α → List (κ × α)
  | [], k, v => [(k, v)]
  | (k', v') :: rest, k, v =>
    if k' = k then (k, v) :: rest else (k', v') :: pySet rest k v

/-- Nearest integer with ties to even, the rounding used by Python's
`round()` on `Decimal` values (banker's rounding, `ROUND_HALF_EVEN`). -/
def roundHalfEven (q : ℚ) : ℤ :=
  let f := ⌊q⌋
  if q - f < (1 : ℚ) / 2 then f
  else if q - f > (1 : ℚ) / 2 then f + 1
  else if 2 ∣ f then f else f + 1

/-- Python `round(q, d)` on a `Decimal`: round to `d` decimal digits, ties to
even. -/
def pyRound (q : ℚ) (d : ℕ) : ℚ :=
  (roundHalfEven (q * 10 ^ d) : ℚ) / 10 ^ d

/-! ## Fixed strategy (custom_components/powercalc/strategy/fixed.py)

`FixedStrategy.calculate` receives a Home Assistant `State` whose `.state`
is a raw string and whose `.attributes` is a dict.  Attribute values are
compared through `str(...)`; we model attribute values as strings and
`str(attributes.get(a))` as `pyStr`, with `str(None) = "None"`. -/

/-- A Python string, modelled character-wise (the fixed strategy splits its
table keys on `'|'`). -/
abbrev PyStr := List Char

/-- Device state as seen by the calculation strategies: the raw state string
and the attribute dict (`homeassistant.core.State`). -/
structure FState where
  state : PyStr
  attributes : List (PyStr × PyStr)
deriving DecidableEq

/-- `str(attributes.get(a))`: a missing attribute stringifies to `"None"`. -/
def pyStr (o : Option PyStr) : PyStr := o.getD "None".toList

/-- Split a string at its first `'|'`: `none` when there is no `'|'`,
otherwise the parts before and after it. -/
def splitOnceAux : PyStr → Option (PyStr × PyStr)
  | [] => none
  | c :: rest =>
    if c = '|' then some ([], rest)
    else (splitOnceAux rest).map (fun p => (c :: p.1, p.2))

/-- Python `s.split("|", 2)`: at most two splits, so at most three parts. -/
def pySplitMax2 (s : PyStr) : List PyStr :=
  match splitOnceAux s with
  | none => [s]
  | some (a, r) =>
    match splitOnceAux r with
    | none => [a, r]
    | some (b, r2) => [a, b, r2]

/-- Number of `'|'` characters in a table key. -/
def pipeCount : PyStr → ℕ
  | [] => 0
  | c :: rest => (if c = '|' then 1 else 0) + pipeCount rest

/-- Modelled from the spec: `evaluate_power`
(custom_components/powercalc/helpers.py, which is not part of src/)
evaluates a configured power value; per the spec the fixed strategy
"returns a constant or templated value", so a plain numeric power evaluates
to itself.  Template-valued powers are outside the scope of the claims. -/
def evaluate_power (p : ℚ) : Option ℚ := some p

/-- The `for state_key, power in self._per_state_power.items()` loop of
`FixedStrategy.calculate` (fixed.py lines 53-58): scan the remaining table
entries in declaration order; a key containing `'|'` is unpacked via
`state_key.split("|", 2)` into `attribute, value` (a `ValueError`, modelled
as `.error ()`, when that yields more than two parts) and matches when
`str(entity_state.attributes.get(attribute)) == value`.  `.ok none` means
the loop fell through without returning. -/
def attrScan (attrs : List (PyStr × PyStr)) : List (PyStr × ℚ) → Except Unit (Option ℚ)
  | [] => .ok none
  | (state_key, power) :: rest =>
    if state_key.contains '|' then
      match pySplitMax2 state_key with
      | [attr, value] =>
        if pyStr (pyGet attrs attr) = value then .ok (evaluate_power power)
        else attrScan attrs rest
      | _ => .error ()
    else attrScan attrs rest

/-- `FixedStrategy.calculate` (fixed.py lines 45-63).  `power` is
`self._power`, `per_state_power` is `self._per_state_power` (a dict in
declaration order).  `.error ()` models the uncaught `ValueError` raised by
tuple unpacking on a malformed table key. -/
def calculate (power : Option ℚ) (per_state_power : Option (List (PyStr × ℚ)))
    (entity_state : FState) : Except Unit (Option ℚ) :=
  match per_state_power with
  | some table =>
    match pyGet table entity_state.state with
    | some p => .ok (evaluate_power p)
    | none =>
      match attrScan entity_state.attributes table with
      | .error e => .error e
      | .ok (some p) => .ok (some p)
      | .ok none =>
        match power with
        | none => .ok none
        | some p => .ok (evaluate_power p)
  | none =>
    match power with
    | none => .ok none
    | some p => .ok (evaluate_power p)

/-! ## Composite strategy (custom_components/powercalc/strategy/composite.py) -/

/-- One member of a composite strategy (composite.py `SubStrategy`): an
optional condition checker (`None` is falsy in Python) and the delegate
strategy, modelled by its `calculate` function. -/
structure SubStrategy where
  condition : Option (FState → Bool)
  strategy : FState → Option ℚ

/-- `CompositeStrategy.calculate` (composite.py lines 22-29): walk the
members in declared order; `continue` past a member whose condition exists
and evaluates falsy, otherwise return that member's strategy result; `None`
after the loop. -/
def compositeCalculate (strategies : List SubStrategy) (entity_state : FState) : Option ℚ :=
  match strategies with
  | [] => none
  | sub :: rest =>
    match sub.condition with
    | some cond =>
      if cond entity_state then sub.strategy entity_state
      else compositeCalculate rest entity_state
    | none => sub.strategy entity_state

/-! ## Group sensors (custom_components/powercalc/sensors/group.py)

Member sensor states carry a numeric reading or the `unknown`/`unavailable`
marker strings, plus the `unit_of_measurement` attribute.  The unit type is
a parameter: power groups convert through `PowerConverter` (native unit W),
energy groups through `EnergyConverter` (native unit set from the
configured unit prefix). -/

/-- The `.state` field of a member sensor's Home Assistant `State`:
`STATE_UNAVAILABLE`, `STATE_UNKNOWN`, or a numeric reading. -/
inductive SVal
  | unavailable
  | unknown
  | num (q : ℚ)
deriving DecidableEq

/-- `True` exactly for numeric readings. -/
def SVal.isNum : SVal → Bool
  | .num _ => true
  | _ => false

/-- Energy units handled by the grouped energy sensor configuration
(`ENERGY_WATT_HOUR`, `ENERGY_KILO_WATT_HOUR`, `ENERGY_MEGA_WATT_HOUR`). -/
inductive EnergyUnit
  | Wh
  | kWh
  | MWh
deriving DecidableEq

/-- Power units (`POWER_WATT` and kilowatts). -/
inductive PowerUnit
  | W
  | kW
deriving DecidableEq

/-- `EnergyConverter` ratio to Wh. -/
def energyFactor : EnergyUnit → ℚ
  | .Wh => 1
  | .kWh => 1000
  | .MWh => 1000000

/-- `PowerConverter` ratio to W. -/
def powerFactor : PowerUnit → ℚ
  | .W => 1
  | .kW => 1000

/-- A member sensor state as used by the group sensors: entity id, state
value and the `unit_of_measurement` attribute.  `υ` is `EnergyUnit` for
energy groups and `PowerUnit` for power groups. -/
structure EState (υ : Type) where
  entity_id : String
  state : SVal
  unit : Option υ
deriving DecidableEq

/-- `GroupedSensor._get_state_value_in_native_unit` (group.py lines
522-540): parse the state value and convert it to the group's native unit
`nu` when a different `unit_of_measurement` attribute is present.  `factor`
is the dimensional ratio table of the applicable unit converter.  The
source calls `float(state.state)`, which raises on a non-numeric state
string; this function is only reached for numeric states (the caller
filters out `unknown`/`unavailable` members), so the non-numeric case is
mapped to 0 and excluded by hypotheses where it matters. -/
def stateValueInNativeUnit [DecidableEq υ] (factor : υ → ℚ) (nu : υ) (s : EState υ) : ℚ :=
  match s.state with
  | .num value =>
    match s.unit with
    | some u => if u ≠ nu then value * factor u / factor nu else value
    | none => value
  | _ => 0

/-- The previous-state store contents: `PreviousStateStore.states`, a dict
from entity id to the last stored `State` snapshot (always an energy member
snapshot: only `GroupedEnergySensor` uses the store). -/
abbrev PrevStore := List (String × EState EnergyUnit)

/-- `PreviousStateStore.get_entity_state` (group.py lines 698-700). -/
def get_entity_state (store : PrevStore) (entity_id : String) : Option (EState EnergyUnit) :=
  pyGet store entity_id

/-- `PreviousStateStore.set_entity_state` (group.py lines 702-704). -/
def set_entity_state (store : PrevStore) (entity_id : String) (state : EState EnergyUnit) : PrevStore :=
  pySet store entity_id state

/-- Python truthiness of `self.state` for the grouped energy sensor at
recompute time: `None` and `Decimal(0)` are falsy, any other numeric value
is truthy.  (A state freshly restored from the recorder is a string and a
string `"0.00"` would be truthy; at every recompute after the first the
state is the `Decimal` the sensor itself wrote, for which this model is
exact, and all claims settled here are insensitive to that corner.) -/
def groupStateTruthy : Option ℚ → Bool
  | none => false
  | some q => decide (q ≠ 0)

/-- The member loop of `GroupedEnergySensor.calculate_new_state` (group.py
lines 609-628), threading the running sum and the previous-state store:
look up the member's previous snapshot (converted to the native unit when
present, else defaulting to the current value when `self.state` is truthy
and to 0 otherwise), store the member's current snapshot, then add the
delta unless it is negative (which is skipped with a warning). -/
def calcFold (nu : EnergyUnit) (gs : Option ℚ) :
    PrevStore → ℚ → List (EState EnergyUnit) → ℚ × PrevStore
  | store, group_sum, [] => (group_sum, store)
  | store, group_sum, entity_state :: rest =>
    let cur_state := stateValueInNativeUnit energyFactor nu entity_state
    let prev_state :=
      match get_entity_state store entity_state.entity_id with
      | some prev => stateValueInNativeUnit energyFactor nu prev
      | none => if groupStateTruthy gs then cur_state else 0
    let store' := set_entity_state store entity_state.entity_id entity_state
    let delta := cur_state - prev_state
    if delta < 0 then calcFold nu gs store' group_sum rest
    else calcFold nu gs store' (group_sum + delta) rest

/-- `GroupedEnergySensor.calculate_new_state` (group.py lines 599-631).
`gs` is `self.state` (the group's own current state, `None` when the group
has none); the initial `group_sum` is `Decimal(0)` when it is `None` and
`Decimal(self.state)` otherwise.  Returns the new group total together with
the updated previous-state store. -/
def calculate_new_state (nu : EnergyUnit) (store : PrevStore) (gs : Option ℚ)
    (member_states : List (EState EnergyUnit)) : ℚ × PrevStore :=
  let group_sum : ℚ := match gs with | none => 0 | some q => q
  calcFold nu gs store group_sum member_states

/-- `GroupedPowerSensor.calculate_new_state` (group.py lines 550-553): the
sum of the members' values in the native unit (W). -/
def calculate_new_state_power (member_states : List (EState PowerUnit)) : ℚ :=
  (member_states.map (stateValueInNativeUnit powerFactor PowerUnit.W)).sum

/-- The availability test of `GroupedSensor.on_state_change` (group.py
lines 485-489): `state.state not in [STATE_UNKNOWN, STATE_UNAVAILABLE]`. -/
def isConsidered (s : EState υ) : Bool :=
  match s.state with
  | SVal.unknown => false
  | SVal.unavailable => false
  | SVal.num _ => true

/-- The test of group.py lines 490-494: `state.state == STATE_UNAVAILABLE`. -/
def isUnavailableState (s : EState υ) : Bool :=
  match s.state with
  | SVal.unavailable => true
  | _ => false

/-- Result of a grouped power sensor recompute. -/
inductive GroupResult
  | unavailable
  | value (q : ℚ)
deriving DecidableEq

/-- Result of a grouped energy sensor recompute: unavailable, or the new
(rounded) state together with the updated previous-state store. -/
inductive EnergyResult
  | unavailable
  | value (q : ℚ) (store : PrevStore)
deriving DecidableEq

/-- The `for entity_id in unavailable_entities` loop of
`GroupedSensor.on_state_change` (group.py lines 496-500), with Python's
list-iterator semantics made explicit: the iterator yields the element at
index `i` of the *current* list and always advances `i`, while
`unavailable_entities.remove(entity_id)` (performed when the store holds a
snapshot, which is also appended to `available_states`) deletes the first
occurrence, shifting later elements down so that the next element is
skipped.  `fuel` bounds the number of iterations; the callers pass the
initial list length, which always suffices because the list never grows. -/
def substitutionLoop (store : PrevStore) :
    ℕ → ℕ → List (EState EnergyUnit) → List String →
    List (EState EnergyUnit) × List String
  | 0, _, available_states, unavailable_entities => (available_states, unavailable_entities)
  | fuel + 1, i, available_states, unavailable_entities =>
    if h : i < unavailable_entities.length then
      let entity_id := unavailable_entities.get ⟨i, h⟩
      match get_entity_state store entity_id with
      | some prev_state =>
          substitutionLoop store fuel (i + 1) (available_states ++ [prev_state])
            (unavailable_entities.erase entity_id)
      | none => substitutionLoop store fuel (i + 1) available_states unavailable_entities
    else (available_states, unavailable_entities)

/-- `GroupedSensor.on_state_change` (group.py lines 477-520) specialised to
`GroupedPowerSensor` (the `isinstance(self, GroupedEnergySensor)`
substitution block is skipped): gather the members' current states
(`none` = entity not found, dropped by `filter(None, ...)`), keep those
that are neither `unknown` nor `unavailable`, become unavailable when none
remain, otherwise sum and round. -/
def on_state_change_power (members : List (Option (EState PowerUnit)))
    (rounding_digits : ℕ) : GroupResult :=
  let states := members.filterMap id
  let available_states := states.filter isConsidered
  if available_states.isEmpty then .unavailable
  else .value (pyRound (calculate_new_state_power available_states) rounding_digits)

/-- `GroupedSensor.on_state_change` (group.py lines 477-520) specialised to
`GroupedEnergySensor`: after gathering, each unavailable member gets a
chance at substitution from the previous-state store via
`substitutionLoop`; when unavailable members remain afterwards the group
becomes unavailable, when no available state remains the group becomes
unavailable, otherwise the new state is the rounded
`calculate_new_state`. -/
def on_state_change_energy (nu : EnergyUnit) (store : PrevStore) (gs : Option ℚ)
    (members : List (Option (EState EnergyUnit))) (rounding_digits : ℕ) : EnergyResult :=
  let states := members.filterMap id
  let available_states := states.filter isConsidered
  let unavailable_entities := (states.filter isUnavailableState).map
    (fun s => s.entity_id)
  if unavailable_entities.isEmpty then
    if available_states.isEmpty then .unavailable
    else
      let r := calculate_new_state nu store gs available_states
      .value (pyRound r.1 rounding_digits) r.2
  else
    let subst := substitutionLoop store unavailable_entities.length 0
      available_states unavailable_entities
    if !subst.2.isEmpty then .unavailable
    else if subst.1.isEmpty then .unavailable
    else
      let r := calculate_new_state nu store gs subst.1
      .value (pyRound r.1 rounding_digits) r.2

/-! ## Previous-state store persistence (group.py lines 665-735)

`persist_states` serializes `self.states` through the JSON encoder (each
`State` via its `as_dict` form); a new store instance parses the persisted
document back with `State.from_dict`.  `as_dict`/`from_dict` live in the
external Home Assistant core; they are modelled by an explicit JSON value
type and an encode/decode pair, with the decode-of-encode inverse proved
below rather than assumed. -/

/-- A JSON value as needed for serialized state snapshots. -/
inductive JVal
  | str (s : String)
  | num (q : ℚ)
  | null
deriving DecidableEq

/-- `State.as_dict` restricted to the fields the store round-trips: entity
id, state value and the unit-of-measurement attribute. -/
def stateAsDict (s : EState EnergyUnit) : List (String × JVal) :=
  [("entity_id", JVal.str s.entity_id),
   ("state",
     match s.state with
     | .unavailable => JVal.str "unavailable"
     | .unknown => JVal.str "unknown"
     | .num q => JVal.num q),
   ("unit_of_measurement",
     match s.unit with
     | none => JVal.null
     | some .Wh => JVal.str "Wh"
     | some .kWh => JVal.str "kWh"
     | some .MWh => JVal.str "MWh")]

/-- `State.from_dict`: rebuild a snapshot from its serialized form, `none`
on a malformed document. -/
def stateFromDict (d : List (String × JVal)) : Option (EState EnergyUnit) :=
  match pyGet d "entity_id", pyGet d "state", pyGet d "unit_of_measurement" with
  | some (JVal.str eid), some sj, some uj =>
    let sv : Option SVal :=
      match sj with
      | JVal.str "unavailable" => some SVal.unavailable
      | JVal.str "unknown" => some SVal.unknown
      | JVal.num q => some (SVal.num q)
      | _ => none
    let uv : Option (Option EnergyUnit) :=
      match uj with
      | JVal.null => some none
      | JVal.str "Wh" => some (some EnergyUnit.Wh)
      | JVal.str "kWh" => some (some EnergyUnit.kWh)
      | JVal.str "MWh" => some (some EnergyUnit.MWh)
      | _ => none
    match sv, uv with
    | some sval, some uval => some ⟨eid, sval, uval⟩
    | _, _ => none
  | _, _, _ => none

/-- `PreviousStateStore.persist_states` (group.py lines 706-711): the
persisted document maps each tracked entity id to its serialized
snapshot. -/
def persist_states (store : PrevStore) : List (String × List (String × JVal)) :=
  store.map (fun kv => (kv.1, stateAsDict kv.2))

/-- The load step of `PreviousStateStore.async_get_instance` (group.py
lines 679-685): parse each persisted entry back with `State.from_dict`
(entries whose parse fails contribute nothing). -/
def loadStore (doc : List (String × List (String × JVal))) : PrevStore :=
  doc.filterMap (fun kv => (stateFromDict kv.2).map (fun s => (kv.1, s)))

/-- A batch of later `set_entity_state` calls applied in order. -/
def applySets (store : PrevStore) (ops : List (String × EState EnergyUnit)) : PrevStore :=
  ops.foldl (fun st op => set_entity_state st op.1 op.2) store

/-! ## Model resolution (library.py `ProfileLibrary.find_model` and
local.py `LocalLoader.find_model`) -/

/-- Python `s.lower()`, modelled character-wise. -/
def pyLower (s : String) : String := String.mk (s.data.map Char.toLower)

/-- One left-to-right pass of Python `s.replace(pat, rep)` over the
characters of `s` (non-overlapping matches, scanning left to right).
`fuel` bounds the recursion; the caller passes the string length, which
suffices for any nonempty pattern. -/
def pyReplaceAux (pat rep : List Char) : ℕ → List Char → List Char
  | 0, s => s
  | _ + 1, [] => []
  | fuel + 1, c :: rest =>
    if pat.isPrefixOf (c :: rest) then
      rep ++ pyReplaceAux pat rep fuel ((c :: rest).drop pat.length)
    else c :: pyReplaceAux pat rep fuel rest

/-- Python `s.replace(pat, rep)` (used with the nonempty pattern
`"#slash#"`). -/
def pyReplace (s pat rep : String) : String :=
  String.mk (pyReplaceAux pat.data rep.data s.data.length s.data)

/-- The trailing-parenthetical rewrite
`re.sub(r"^(.*)\(([^()]+)\)$", r"\2", model)` (library.py line 148): when
the string ends in `)` and the nearest parenthesis character to its left is
`(` with a nonempty run of parenthesis-free characters in between, the
whole string is replaced by that run (the greedy `(.*)` makes the last such
`(` the one chosen); otherwise the string is unchanged. -/
def parenExtract (s : String) : String :=
  let cs := s.data
  match cs.getLast? with
  | some c =>
    if c = ')' then
      let rev := cs.dropLast.reverse
      let p := rev.span (fun ch => !(ch == '(' || ch == ')'))
      match p.2.head? with
      | some '(' => if p.1.isEmpty then s else String.mk p.1.reverse
      | _ => s
    else s
  | none => s

/-- The candidate set built by `ProfileLibrary.find_model` (library.py
lines 143-149).  The source builds a Python `set` (unordered); the list
order here records the claim's candidate priority, and the loader below
only ever tests membership. -/
def searchCandidates (model : String) : List String :=
  [model,
   pyReplace model "#slash#" "/",
   pyLower model,
   pyReplace (pyLower model) "#slash#" "/",
   parenExtract model]

/-- A manufacturer's model index of the local loader:
`self._manufacturer_model_listing[manufacturer]`, a dict mapping the
lowercased model id or alias to the `PowerProfile`, represented by its
`.model` attribute (the value `find_model` returns). -/
abbrev MIndex := List (String × String)

/-- `LocalLoader.find_model` (local.py lines 114-126): look the manufacturer
up in lower case, fail on a missing or empty index, otherwise return the
profile of the first indexed key (in insertion order) whose lowercased form
is in the lowercased search set. -/
def localFindModel (listing : List (String × MIndex)) (manufacturer : String)
    (search : List String) : Option String :=
  match pyGet listing (pyLower manufacturer) with
  | none => none
  | some models =>
    if models.isEmpty then none
    else
      let search_lower := search.map pyLower
      (models.find? (fun kv => search_lower.contains (pyLower kv.1))).map (fun kv => kv.2)

/-- `ProfileLibrary.find_model` (library.py lines 138-151) over a local
loader: build the candidate set for the model id and delegate. -/
def find_model (listing : List (String × MIndex)) (manufacturer model : String) : Option String :=
  localFindModel listing manufacturer (searchCandidates model)

/-! ## Remote loader (custom_components/powercalc/power_profile/loader/remote.py)

Network and filesystem effects are passed in as oracle arguments: the HTTP
status and parsed body of the manifest fetch, whether the profile cache
directory exists, and the outcomes of the profile download and of reading
`model.json`. -/

/-- The parsed `library.json` manifest: manufacturer name with its model
ids.  `none` stands for the empty JSON object `{}` (falsy in Python). -/
abbrev LibDoc := Option (List (String × List String))

/-- Errors surfaced by the remote loader. -/
inductive RemoteError
  | libraryInvalid
  | jsonDecode
  | libraryLoading
  | download
  | ioRead
deriving DecidableEq

/-- `RemoteLoader.load_library_json` (remote.py lines 42-53).  `status` and
`remoteBody` describe the HTTP response for the library endpoint
(`remoteBody` is `Except.error ()` when `await resp.json()` raises),
`localCopy` is the parsed bundled copy of `library.json`.  The source reads
the local copy inside `if resp.status != 200:` and then assigns
`self.library_contents = await resp.json()` unconditionally (line 50 is not
in an `else`), which the `let` sequence mirrors; finally an empty document
raises `LibraryLoadingError`. -/
def load_library_json (status : ℕ) (remoteBody : Except Unit LibDoc)
    (localCopy : LibDoc) : Except RemoteError LibDoc :=
  let contents0 : LibDoc := none
  let contents1 : LibDoc := if status ≠ 200 then localCopy else contents0
  match remoteBody with
  | .error _ => .error .jsonDecode
  | .ok body =>
    let contents2 : LibDoc := body
    let _ := contents1
    if contents2.isSome then .ok contents2 else .error .libraryInvalid

/-- A manifest entry of `RemoteLoader.model_infos`. -/
structure RModelInfo where
  id : String
deriving DecidableEq

/-- Opaque payload of a downloaded `model.json`. -/
abbrev ModelJson := List (String × String)

/-- `self.hass.config.path(STORAGE_DIR, "powercalc_profiles", manufacturer, model)`. -/
def storagePath (manufacturer model : String) : String :=
  ".storage/powercalc_profiles/" ++ manufacturer ++ "/" ++ model

/-- `RemoteLoader.load_model` (remote.py lines 73-106).  `model_infos` is
the manifest index keyed by `"manufacturer/model"`; `path_exists` tells
whether the profile's cache directory exists; `download` is the outcome of
`_download_profile` (an error models `ProfileDownloadError`); `read_json`
is the outcome of opening and parsing the cached `model.json`.  A supplied
custom directory returns `None` immediately (remote loading is delegated to
the other loaders in the composite chain). -/
def load_model (model_infos : List (String × RModelInfo)) (path_exists : Bool)
    (download : Except Unit Unit) (read_json : Except Unit ModelJson)
    (manufacturer model : String) (directory : Option String) :
    Except RemoteError (Option (ModelJson × String)) :=
  if directory.isSome then .ok none
  else
    match pyGet model_infos (manufacturer ++ "/" ++ model) with
    | none => .error .libraryLoading
    | some _ =>
      let storage_path := storagePath manufacturer model
      let needs_update := !path_exists
      if needs_update then
        match download with
        | .error _ => .error .download
        | .ok _ =>
          match read_json with
          | .error _ => .error .ioRead
          | .ok json_data => .ok (some (json_data, storage_path))
      else
        match read_json with
        | .error _ => .error .ioRead
        | .ok json_data => .ok (some (json_data, storage_path))

/-! ## Claim-side definitions

The following definitions transcribe claim sentences (not the source); each
is compared against the corresponding source embedding in the theorems
below. -/

/-- Claim C1's member baseline, as stated: the previous value in the native
unit, "defaulting to the current value (yielding delta 0) when the member
has no stored previous snapshot". -/
def claimPrev (nu : EnergyUnit) (store : PrevStore) (s : EState EnergyUnit) : ℚ :=
  match get_entity_state store s.entity_id with
  | some prev => stateValueInNativeUnit energyFactor nu prev
  | none => stateValueInNativeUnit energyFactor nu s

/-- Claim C1's group total, as stated: the previous group total plus the
sum of the non-negative deltas (a negative delta contributes nothing). -/
def claimTotal (nu : EnergyUnit) (store : PrevStore) (gs : Option ℚ)
    (member_states : List (EState EnergyUnit)) : ℚ :=
  (match gs with | none => 0 | some q => q) +
    (member_states.map (fun s =>
      let delta := stateValueInNativeUnit energyFactor nu s - claimPrev nu store s
      if delta < 0 then 0 else delta)).sum

/-- Amended C1 baseline: the stored snapshot's value when present; with no
stored snapshot it defaults to the current value (delta 0) only when the
group sensor itself has a truthy state, and to 0 (so the member's full
current reading is added) when it does not. -/
def amendedPrev (nu : EnergyUnit) (store : PrevStore) (gs : Option ℚ)
    (s : EState EnergyUnit) : ℚ :=
  match get_entity_state store s.entity_id with
  | some prev => stateValueInNativeUnit energyFactor nu prev
  | none => if groupStateTruthy gs then stateValueInNativeUnit energyFactor nu s else 0

/-- Amended C1 member contribution: the delta against `amendedPrev`, with
negative deltas contributing nothing. -/
def amendedContrib (nu : EnergyUnit) (store : PrevStore) (gs : Option ℚ)
    (s : EState EnergyUnit) : ℚ :=
  let delta := stateValueInNativeUnit energyFactor nu s - amendedPrev nu store gs s
  if delta < 0 then 0 else delta

/-- Amended C1 group total: previous group total (0 when the group has no
state) plus the sum of the members' non-negative deltas, all taken against
the previous-state store as it was before the recompute. -/
def amendedTotal (nu : EnergyUnit) (store : PrevStore) (gs : Option ℚ)
    (member_states : List (EState EnergyUnit)) : ℚ :=
  (match gs with | none => 0 | some q => q) +
    (member_states.map (amendedContrib nu store gs)).sum

/-- Claim C3's power aggregation, as stated: members whose state is unknown
or unavailable are excluded; with no member left the group is unavailable;
otherwise the value is the rounded sum of the members' values converted to
the group's native unit. -/
def claimPowerAggregate (member_states : List (EState PowerUnit))
    (rounding_digits : ℕ) : GroupResult :=
  let remaining := member_states.filter (fun s => s.state.isNum)
  if remaining.isEmpty then .unavailable
  else .value (pyRound
    (remaining.foldl (fun acc s => acc + stateValueInNativeUnit powerFactor PowerUnit.W s) 0)
    rounding_digits)

/-- Claim C4's per-state table match for one `attribute|value` key: the
attribute's stringified value in the state equals the key's value part. -/
def keyMatches (attrs : List (PyStr × PyStr)) (k : PyStr) : Bool :=
  match pySplitMax2 k with
  | [a, v] => decide (pyStr (pyGet attrs a) = v)
  | _ => false

/-- Claim C4's lookup order, as stated: the exact state string first, then
the first `attribute|value` key (in declaration order) whose attribute
matches, then the flat configured power, and `none` when nothing is
configured or matches. -/
def claimFixedLookup (power : Option ℚ) (table : List (PyStr × ℚ)) (st : FState) : Option ℚ :=
  match pyGet table st.state with
  | some p => some p
  | none =>
    match table.find? (fun kv => kv.1.contains '|' && keyMatches st.attributes kv.1) with
    | some kv => some kv.2
    | none => power

/-- Every table key holds at most one `'|'`: the well-formedness under
which the attribute scan cannot raise. -/
def wellformedTable (table : List (PyStr × ℚ)) : Prop :=
  ∀ kv ∈ table, pipeCount kv.1 ≤ 1

instance (table : List (PyStr × ℚ)) : Decidable (wellformedTable table) := by
  unfold wellformedTable; infer_instance

/-- Amended C9 scan predicate: walking the table keys in declaration order,
the unpacking raises exactly when a key with two or more `'|'` characters
is reached before any earlier well-formed key matches. -/
def scanRaises (attrs : List (PyStr × PyStr)) : List (PyStr × ℚ) → Bool
  | [] => false
  | (k, _) :: rest =>
    if 2 ≤ pipeCount k then true
    else if pipeCount k = 1 && keyMatches attrs k then false
    else scanRaises attrs rest

/-- Claim C5's dispatch, as stated: the first member whose condition holds
or which has no condition wins; `none` when no member matches. -/
def claimCompositeDispatch (strategies : List SubStrategy) (st : FState) : Option ℚ :=
  match strategies.find? (fun sub => sub.condition.all (fun c => c st)) with
  | some sub => sub.strategy st
  | none => none

/-- A model-listing key matches when its lowercased form equals the
lowercased form of one of the five candidates. -/
def candidateMatch (model key : String) : Bool :=
  (searchCandidates model).any (fun c => pyLower key == pyLower c)

/-- Claim C6's resolution order, as stated: try the candidates in priority
order (exact, slash-unescaped, lowercased, lowercased+unescaped, trailing
parenthetical content) and return the model matched by the first candidate
the loader recognizes. -/
def claimFindModel (listing : List (String × MIndex)) (manufacturer model : String) :
    Option String :=
  match pyGet listing (pyLower manufacturer) with
  | none => none
  | some models =>
    (searchCandidates model).findSome? (fun c =>
      (models.find? (fun kv => pyLower kv.1 == pyLower c)).map (fun kv => kv.2))

/-! ## Helper lemmas -/

theorem pyGet_pySet_self [DecidableEq κ] (l : List (κ × α)) (k : κ) (v : α) :
    pyGet (pySet l k v) k = some v := by
  induction l with
  | nil => simp [pyGet, pySet, List.find?]
  | cons kv rest ih =>
    by_cases h : kv.1 = k
    · simp [pyGet, pySet, h, List.find?]
    · simpa [pyGet, pySet, h, List.find?] using ih

theorem pyGet_pySet_ne [DecidableEq κ] (l : List (κ × α)) (k k' : κ) (v : α)
    (h : k' ≠ k) : pyGet (pySet l k v) k' = pyGet l k' := by
  induction l with
  | nil => simp [pyGet, pySet, List.find?, h, Ne.symm h]
  | cons kv rest ih =>
    obtain ⟨k1, v1⟩ := kv
    by_cases hk : k1 = k
    · subst hk
      simp [pyGet, pySet, List.find?, Ne.symm h]
    · by_cases hk' : k1 = k'
      · simp [pyGet, pySet, hk, List.find?, hk', h]
      · simpa [pyGet, pySet, hk, List.find?, hk'] using ih

theorem applySets_get_notmem (store : PrevStore) (ops : List (String × EState EnergyUnit))
    (id : String) (h : ∀ p ∈ ops, p.1 ≠ id) :
    pyGet (applySets store ops) id = pyGet store id := by
  induction ops generalizing store with
  | nil => rfl
  | cons op rest ih =>
    have hop : op.1 ≠ id := h op (List.mem_cons_self _ _)
    have hrest : ∀ p ∈ rest, p.1 ≠ id := fun p hp => h p (List.mem_cons_of_mem _ hp)
    calc pyGet (applySets (set_entity_state store op.1 op.2) rest) id
        = pyGet (set_entity_state store op.1 op.2) id := ih _ hrest
      _ = pyGet store id := pyGet_pySet_ne _ _ _ _ (Ne.symm hop)

theorem applySets_get_mem (store : PrevStore) (ops : List (String × EState EnergyUnit))
    (k : String) (v : EState EnergyUnit) (hnd : (ops.map (fun p => p.1)).Nodup)
    (hmem : (k, v) ∈ ops) : pyGet (applySets store ops) k = some v := by
  induction ops generalizing store with
  | nil => cases hmem
  | cons op rest ih =>
    rw [List.map_cons, List.nodup_cons] at hnd
    rcases List.mem_cons.mp hmem with heq | htail
    · subst heq
      have hrest : ∀ p ∈ rest, p.1 ≠ k := by
        intro p hp hpk
        exact hnd.1 (hpk ▸ List.mem_map_of_mem (fun q => q.1) hp)
      calc pyGet (applySets (set_entity_state store k v) rest) k
          = pyGet (set_entity_state store k v) k := applySets_get_notmem _ _ _ hrest
        _ = some v := pyGet_pySet_self _ _ _
    · exact ih _ hnd.2 htail

theorem calcFold_snd (nu : EnergyUnit) (gs : Option ℚ)
    (members : List (EState EnergyUnit)) :
    ∀ (store : PrevStore) (acc : ℚ),
      (calcFold nu gs store acc members).2 =
        applySets store (members.map (fun s => (s.entity_id, s))) := by
  induction members with
  | nil => intro store acc; rfl
  | cons s rest ih =>
    intro store acc
    show (calcFold nu gs store acc (s :: rest)).2 = _
    rw [calcFold]
    by_cases hd :
        stateValueInNativeUnit energyFactor nu s -
          (match get_entity_state store s.entity_id with
           | some prev => stateValueInNativeUnit energyFactor nu prev
           | none => if groupStateTruthy gs then stateValueInNativeUnit energyFactor nu s
                     else 0) < 0
    · simp only [hd, if_true]
      exact ih _ _
    · simp only [hd, if_false]
      exact ih _ _

theorem sum_map_congr {α : Type} (l : List α) (f g : α → ℚ)
    (h : ∀ a ∈ l, f a = g a) : (l.map f).sum = (l.map g).sum := by
  induction l with
  | nil => rfl
  | cons a rest ih =>
    simp only [List.map_cons, List.sum_cons]
    rw [h a (List.mem_cons_self _ _),
      ih (fun b hb => h b (List.mem_cons_of_mem _ hb))]

theorem stateFromDict_stateAsDict (s : EState EnergyUnit) :
    stateFromDict (stateAsDict s) = some s := by
  obtain ⟨eid, sv, u⟩ := s
  cases sv <;> rcases u with _ | u <;> first | rfl | (cases u <;> rfl)

theorem loadStore_persist_states (store : PrevStore) :
    loadStore (persist_states store) = store := by
  induction store with
  | nil => rfl
  | cons kv rest ih =>
    simp only [persist_states, List.map_cons, loadStore, List.filterMap_cons,
      stateFromDict_stateAsDict, Option.map_some']
    simpa [persist_states, loadStore] using ih

theorem calcFold_cons (nu : EnergyUnit) (gs : Option ℚ) (store : PrevStore) (acc : ℚ)
    (s : EState EnergyUnit) (rest : List (EState EnergyUnit)) :
    calcFold nu gs store acc (s :: rest) =
      calcFold nu gs (set_entity_state store s.entity_id s)
        (acc + amendedContrib nu store gs s) rest := by
  have key : ∀ prev : ℚ,
      (if stateValueInNativeUnit energyFactor nu s - prev < 0 then
        calcFold nu gs (set_entity_state store s.entity_id s) acc rest
      else
        calcFold nu gs (set_entity_state store s.entity_id s)
          (acc + (stateValueInNativeUnit energyFactor nu s - prev)) rest) =
      calcFold nu gs (set_entity_state store s.entity_id s)
        (acc + (if stateValueInNativeUnit energyFactor nu s - prev < 0 then 0
                else stateValueInNativeUnit energyFactor nu s - prev)) rest := by
    intro prev
    by_cases hd : stateValueInNativeUnit energyFactor nu s - prev < 0
    · rw [if_pos hd, if_pos hd, add_zero]
    · rw [if_neg hd, if_neg hd]
  show (if _ then _ else _) = _
  rw [key]
  show calcFold nu gs _ _ rest = calcFold nu gs _ _ rest
  congr 2

theorem calcFold_fst (nu : EnergyUnit) (gs : Option ℚ) :
    ∀ (members : List (EState EnergyUnit)) (store : PrevStore) (acc : ℚ),
      (members.map (fun s => s.entity_id)).Nodup →
      (calcFold nu gs store acc members).1 =
        acc + (members.map (amendedContrib nu store gs)).sum := by
  intro members
  induction members with
  | nil => intro store acc _; simp [calcFold]
  | cons s rest ih =>
    intro store acc hnd
    rw [List.map_cons, List.nodup_cons] at hnd
    obtain ⟨hs, hrest⟩ := hnd
    have hcongr : ∀ t ∈ rest,
        amendedContrib nu (set_entity_state store s.entity_id s) gs t =
          amendedContrib nu store gs t := by
      intro t ht
      have hne : t.entity_id ≠ s.entity_id :=
        fun he => hs (he ▸ List.mem_map_of_mem (fun u => u.entity_id) ht)
      unfold amendedContrib amendedPrev
      rw [get_entity_state, get_entity_state, set_entity_state,
        pyGet_pySet_ne _ _ _ _ hne]
    rw [calcFold_cons, ih _ _ hrest, sum_map_congr _ _ _ hcongr,
      List.map_cons, List.sum_cons]
    ring

theorem roundHalfEven_intCast (n : ℤ) : roundHalfEven (n : ℚ) = n := by
  unfold roundHalfEven
  rw [Int.floor_intCast]
  norm_num

theorem foldl_add_eq_sum {α : Type} (l : List α) (f : α → ℚ) :
    ∀ acc : ℚ, l.foldl (fun a s => a + f s) acc = acc + (l.map f).sum := by
  induction l with
  | nil => intro acc; simp
  | cons a rest ih =>
    intro acc
    simp only [List.foldl_cons, List.map_cons, List.sum_cons, ih]
    ring

theorem splitOnceAux_none_iff (s : PyStr) : splitOnceAux s = none ↔ pipeCount s = 0 := by
  induction s with
  | nil => simp [splitOnceAux, pipeCount]
  | cons c rest ih =>
    by_cases hc : c = '|'
    · simp [splitOnceAux, pipeCount, hc]
    · simp only [splitOnceAux, pipeCount, if_neg hc, zero_add]
      cases hr : splitOnceAux rest with
      | none => simpa [hr] using ih
      | some p => simp [hr, ← ih, hr]

theorem splitOnceAux_some_count (s : PyStr) :
    ∀ a r, splitOnceAux s = some (a, r) → pipeCount s = pipeCount r + 1 := by
  induction s with
  | nil => intro a r h; cases h
  | cons c rest ih =>
    intro a r h
    by_cases hc : c = '|'
    · rw [splitOnceAux, if_pos hc] at h
      injection h with h
      cases h
      simp only [pipeCount, if_pos hc]
      omega
    · rw [splitOnceAux, if_neg hc] at h
      cases hr : splitOnceAux rest with
      | none => rw [hr] at h; cases h
      | some p =>
        rw [hr] at h
        injection h with h
        have h2 : p.2 = r := by
          have := congrArg Prod.snd h
          simpa using this
        simp only [pipeCount, if_neg hc, zero_add]
        rw [← h2]
        exact ih p.1 p.2 (by rw [hr])

theorem pySplitMax2_one (s : PyStr) (h : pipeCount s = 1) :
    ∃ a r, pySplitMax2 s = [a, r] := by
  cases hs : splitOnceAux s with
  | none => rw [splitOnceAux_none_iff] at hs; omega
  | some p =>
    obtain ⟨a, r⟩ := p
    have hc := splitOnceAux_some_count s a r hs
    have hr0 : pipeCount r = 0 := by omega
    have hs2 : splitOnceAux r = none := (splitOnceAux_none_iff r).mpr hr0
    exact ⟨a, r, by simp [pySplitMax2, hs, hs2]⟩

theorem pySplitMax2_many (s : PyStr) (h : 2 ≤ pipeCount s) :
    ∃ a b r, pySplitMax2 s = [a, b, r] := by
  cases hs : splitOnceAux s with
  | none => rw [splitOnceAux_none_iff] at hs; omega
  | some p =>
    obtain ⟨a, r⟩ := p
    have hc := splitOnceAux_some_count s a r hs
    have hr1 : pipeCount r ≠ 0 := by omega
    cases hs2 : splitOnceAux r with
    | none => rw [splitOnceAux_none_iff] at hs2; omega
    | some q =>
      obtain ⟨b, r2⟩ := q
      exact ⟨a, b, r2, by simp [pySplitMax2, hs, hs2]⟩

theorem contains_pipe_iff (s : PyStr) : s.contains '|' = true ↔ pipeCount s ≠ 0 := by
  induction s with
  | nil => simp [List.contains, List.elem, pipeCount]
  | cons c rest ih =>
    by_cases hc : c = '|'
    · simp [List.contains, List.elem, pipeCount, hc]
    · have hbeq : ('|' == c) = false := by
        cases hb : '|' == c
        · rfl
        · exact absurd (eq_of_beq hb).symm hc
      simp only [List.contains, List.elem, hbeq, pipeCount, if_neg hc, zero_add]
      exact ih

/-! ## Claim theorems -/

/-- Claim C1 (counterexample): on a fresh group (`self.state` is `None`)
with an empty previous-state store, a member reading 5 kWh contributes its
full value, while the claim as stated (previous defaults to the current
value, so delta 0, and the total is the previous total plus the
non-negative deltas) predicts a total of 0. -/
theorem energy_delta_claim_counterexample :
    (calculate_new_state EnergyUnit.kWh [] none
      [⟨"sensor.a", SVal.num 5, none⟩]).1 = 5 ∧
    claimTotal EnergyUnit.kWh [] none [⟨"sensor.a", SVal.num 5, none⟩] = 0 ∧
    (5 : ℚ) ≠ 0 := by
  refine ⟨?_, ?_, by norm_num⟩
  · norm_num [calculate_new_state, calcFold, stateValueInNativeUnit,
      get_entity_state, pyGet, groupStateTruthy, set_entity_state, pySet]
  · norm_num [claimTotal, claimPrev, stateValueInNativeUnit, get_entity_state, pyGet]

/-- Claim C1 (amended): in `GroupedEnergySensor.calculate_new_state`, each
member's delta is its current native-unit value minus the stored previous
value; with no stored snapshot the previous value defaults to the current
value (delta 0) only when the group already has a truthy state, and to 0
(adding the member's full reading) when it does not; negative deltas are
skipped; the returned total is the previous group total plus the sum of the
non-negative deltas; and afterwards the store holds every member's current
snapshot whether or not its delta was added. -/
theorem energy_delta_accounting_amended (nu : EnergyUnit) (store : PrevStore)
    (gs : Option ℚ) (members : List (EState EnergyUnit))
    (hnd : (members.map (fun s => s.entity_id)).Nodup) :
    (calculate_new_state nu store gs members).1 = amendedTotal nu store gs members ∧
    ∀ s ∈ members,
      get_entity_state (calculate_new_state nu store gs members).2 s.entity_id = some s := by
  constructor
  · unfold calculate_new_state
    rw [calcFold_fst nu gs members store _ hnd]
    rfl
  · intro s hs
    unfold calculate_new_state get_entity_state
    rw [calcFold_snd, applySets_get_mem]
    · simpa using hnd
    · exact List.mem_map_of_mem (fun t => (t.entity_id, t)) hs

/-- Witness for the amended claim C1: a two-member group (one member with a
stored snapshot, one without) on a group with state 10. -/
theorem energy_delta_accounting_amended_witness :
    ((List.map (fun s => s.entity_id)
        [(⟨"sensor.a", SVal.num 7, none⟩ : EState EnergyUnit),
         ⟨"sensor.b", SVal.num 4, none⟩]).Nodup) ∧
    (calculate_new_state EnergyUnit.kWh [("sensor.a", ⟨"sensor.a", SVal.num 5, none⟩)]
        (some 10)
        [⟨"sensor.a", SVal.num 7, none⟩, ⟨"sensor.b", SVal.num 4, none⟩]).1 =
      amendedTotal EnergyUnit.kWh [("sensor.a", ⟨"sensor.a", SVal.num 5, none⟩)]
        (some 10)
        [⟨"sensor.a", SVal.num 7, none⟩, ⟨"sensor.b", SVal.num 4, none⟩] := by
  have h := energy_delta_accounting_amended EnergyUnit.kWh
    [("sensor.a", ⟨"sensor.a", SVal.num 5, none⟩)] (some 10)
    [⟨"sensor.a", SVal.num 7, none⟩, ⟨"sensor.b", SVal.num 4, none⟩] (by decide)
  exact ⟨by decide, h.1⟩

/-- Claim C3: a grouped power sensor recompute excludes members whose state
is unknown or unavailable, becomes unavailable when no member remains, and
otherwise reports the rounded sum of the members' values converted to W;
in particular members reporting 10 W, 20 W and unavailable yield 30. -/
theorem power_group_aggregation :
    (∀ (members : List (Option (EState PowerUnit))) (digits : ℕ),
      on_state_change_power members digits =
        claimPowerAggregate (members.filterMap id) digits) ∧
    on_state_change_power
      [some ⟨"sensor.p1", SVal.num 10, none⟩,
       some ⟨"sensor.p2", SVal.num 20, some PowerUnit.W⟩,
       some ⟨"sensor.p3", SVal.unavailable, none⟩] 2 = GroupResult.value 30 := by
  constructor
  · intro members digits
    rw [on_state_change_power, claimPowerAggregate]
    have hfilter : (members.filterMap id).filter isConsidered =
        (members.filterMap id).filter (fun s => s.state.isNum) := by
      apply List.filter_congr
      intro s _
      cases hstate : s.state <;> simp [isConsidered, SVal.isNum, hstate]
    rw [hfilter, calculate_new_state_power, foldl_add_eq_sum, zero_add]
  · have hround : pyRound 30 2 = 30 := by
      unfold pyRound
      rw [show ((30 : ℚ) * 10 ^ 2) = ((3000 : ℤ) : ℚ) by norm_num,
        roundHalfEven_intCast]
      norm_num
    have hsum : calculate_new_state_power
        [⟨"sensor.p1", SVal.num 10, none⟩, ⟨"sensor.p2", SVal.num 20, some PowerUnit.W⟩] =
        30 := by
      norm_num [calculate_new_state_power, stateValueInNativeUnit]
    simp only [on_state_change_power, List.filterMap, List.filter, isConsidered]
    norm_num [hsum, hround]

/-- Claim C8: `get_entity_state` returns exactly the last snapshot written
by `set_entity_state` for an entity id, across any later writes to other
ids, and the same value survives `persist_states` followed by loading the
persisted document into a fresh store instance. -/
theorem prev_state_store_round_trip (store : PrevStore) (id : String)
    (s : EState EnergyUnit) (ops : List (String × EState EnergyUnit))
    (hops : ∀ p ∈ ops, p.1 ≠ id) :
    get_entity_state (applySets (set_entity_state store id s) ops) id = some s ∧
    get_entity_state
      (loadStore (persist_states (applySets (set_entity_state store id s) ops))) id =
      some s := by
  have h1 : get_entity_state (applySets (set_entity_state store id s) ops) id = some s := by
    rw [get_entity_state, applySets_get_notmem _ _ _ hops, set_entity_state,
      pyGet_pySet_self]
  exact ⟨h1, by rw [loadStore_persist_states]; exact h1⟩

/-- Witness for claim C8: a concrete store, one write, and a later write to
a different id. -/
theorem prev_state_store_round_trip_witness :
    get_entity_state
      (loadStore (persist_states (applySets
        (set_entity_state [] "sensor.a" ⟨"sensor.a", SVal.num 5, some EnergyUnit.kWh⟩)
        [("sensor.b", ⟨"sensor.b", SVal.num 2, none⟩)]))) "sensor.a" =
      some ⟨"sensor.a", SVal.num 5, some EnergyUnit.kWh⟩ :=
  (prev_state_store_round_trip [] "sensor.a" ⟨"sensor.a", SVal.num 5, some EnergyUnit.kWh⟩
    [("sensor.b", ⟨"sensor.b", SVal.num 2, none⟩)] (by decide)).2

/-- The failing store for claim C2: both members have stored snapshots. -/
def bugStore : PrevStore :=
  [("sensor.a", ⟨"sensor.a", SVal.num 3, some EnergyUnit.kWh⟩),
   ("sensor.b", ⟨"sensor.b", SVal.num 4, some EnergyUnit.kWh⟩)]

/-- The failing member states for claim C2: both members unavailable. -/
def bugMembers : List (Option (EState EnergyUnit)) :=
  [some ⟨"sensor.a", SVal.unavailable, none⟩,
   some ⟨"sensor.b", SVal.unavailable, none⟩]

/-- Claim C2 (code evaluation at the failing input): with two consecutive
unavailable members that both have stored snapshots, the removal of
substituted entries from `unavailable_entities` while iterating over it
makes the iterator skip the second member, so the recompute sets the group
unavailable even though every unavailable member has a snapshot — whereas
the claim says a member with a snapshot is substituted and treated as
available, and the group only becomes unavailable when a member has no
snapshot. -/
theorem energy_group_substitution_failing_input :
    on_state_change_energy EnergyUnit.kWh bugStore (some 10) bugMembers 2 =
      EnergyResult.unavailable ∧
    (get_entity_state bugStore "sensor.a").isSome = true ∧
    (get_entity_state bugStore "sensor.b").isSome = true := by
  refine ⟨by decide, by decide, by decide⟩

/-- Claim C5: `CompositeStrategy.calculate` returns the result of the first
member whose condition holds or which has no condition, in declared order,
and `None` when no member matches. -/
theorem composite_dispatch_order :
    ∀ (strategies : List SubStrategy) (st : FState),
      compositeCalculate strategies st = claimCompositeDispatch strategies st := by
  intro strategies st
  induction strategies with
  | nil => rfl
  | cons sub rest ih =>
    cases hc : sub.condition with
    | none =>
      simp [compositeCalculate, claimCompositeDispatch, List.find?, hc, Option.all]
    | some cond =>
      by_cases hcs : cond st = true
      · simp [compositeCalculate, claimCompositeDispatch, List.find?, hc, Option.all, hcs]
      · have hcs' : cond st = false := by
          cases hb : cond st
          · rfl
          · exact absurd hb hcs
        simp [compositeCalculate, claimCompositeDispatch, List.find?, hc, Option.all,
          hcs', ih, claimCompositeDispatch]

theorem attrScan_wellformed (attrs : List (PyStr × PyStr)) :
    ∀ t : List (PyStr × ℚ), wellformedTable t →
      attrScan attrs t =
        .ok ((t.find? (fun kv => kv.1.contains '|' && keyMatches attrs kv.1)).map
          (fun kv => kv.2)) := by
  intro t
  induction t with
  | nil => intro _; rfl
  | cons kv rest ih =>
    intro h
    obtain ⟨k, p⟩ := kv
    have hk : pipeCount k ≤ 1 := h (k, p) (List.mem_cons_self _ _)
    have hrest : wellformedTable rest := fun kv' h' => h kv' (List.mem_cons_of_mem _ h')
    by_cases hcont : k.contains '|' = true
    · have hmem : '|' ∈ k := by simpa using hcont
      have h1 : pipeCount k = 1 := by
        have := (contains_pipe_iff k).mp hcont
        omega
      obtain ⟨a, v, hsp⟩ := pySplitMax2_one k h1
      by_cases hm : pyStr (pyGet attrs a) = v
      · have hkm : keyMatches attrs k = true := by
          rw [keyMatches, hsp]
          exact decide_eq_true hm
        simp [attrScan, hcont, hmem, hsp, hm, List.find?, hkm, evaluate_power]
      · have hkm : keyMatches attrs k = false := by
          rw [keyMatches, hsp]
          exact decide_eq_false hm
        simp [attrScan, hcont, hmem, hsp, hm, List.find?, hkm, ih hrest]
    · have hnotmem : ¬('|' ∈ k) := by simpa using hcont
      simp [attrScan, hcont, hnotmem, List.find?, ih hrest]

/-- Claim C4: with a configured per-state table whose keys are well formed
(at most one `'|'` each), `FixedStrategy.calculate` returns the exact state
match first, then the first matching `attribute|value` key in declaration
order, then the flat power, and returns `None` exactly when no flat power
is configured and no table entry matches. -/
theorem fixed_lookup_order (power : Option ℚ) (t : List (PyStr × ℚ)) (st : FState)
    (h : wellformedTable t) :
    calculate power (some t) st = .ok (claimFixedLookup power t st) ∧
    (calculate power (some t) st = .ok none ↔
      power = none ∧ pyGet t st.state = none ∧
      t.find? (fun kv => kv.1.contains '|' && keyMatches st.attributes kv.1) = none) := by
  have h1 : calculate power (some t) st = .ok (claimFixedLookup power t st) := by
    unfold calculate claimFixedLookup
    cases hg : pyGet t st.state with
    | some p => simp [hg, evaluate_power]
    | none =>
      simp only [hg]
      rw [attrScan_wellformed st.attributes t h]
      cases hf : t.find? (fun kv => kv.1.contains '|' && keyMatches st.attributes kv.1) with
      | some kv => simp [hf]
      | none => cases power <;> simp [hf, evaluate_power]
  refine ⟨h1, ?_⟩
  rw [h1]
  unfold claimFixedLookup
  cases hg : pyGet t st.state with
  | some p => simp [hg]
  | none =>
    simp only [hg]
    cases hf : t.find? (fun kv => kv.1.contains '|' && keyMatches st.attributes kv.1) with
    | some kv => simp [hf]
    | none => cases power <;> simp [hf]

/-- The spec's worked example for claim C4: an attribute-keyed table and a
flat fallback of 12. -/
def exampleTable : List (PyStr × ℚ) := [("attr|X".toList, 5), ("attr|Y".toList, 10)]

/-- A state hitting neither table entry of `exampleTable`. -/
def exampleFState : FState := ⟨"other".toList, [("attr".toList, "Z".toList)]⟩

/-- Witness for claim C4: the worked example — a state whose `attr` value
matches no table entry falls back to the flat power 12. -/
theorem fixed_lookup_order_witness :
    calculate (some 12) (some exampleTable) exampleFState = .ok (some 12) := by
  have h := (fixed_lookup_order (some 12) exampleTable exampleFState (by decide)).1
  have h2 : claimFixedLookup (some 12) exampleTable exampleFState = some 12 := by decide
  rw [h, h2]

theorem attrScan_error_iff (attrs : List (PyStr × PyStr)) :
    ∀ t : List (PyStr × ℚ), (attrScan attrs t = .error ()) ↔ scanRaises attrs t = true := by
  intro t
  induction t with
  | nil => simp [attrScan, scanRaises]
  | cons kv rest ih =>
    obtain ⟨k, p⟩ := kv
    by_cases hcont : k.contains '|' = true
    · have hmem : '|' ∈ k := by simpa using hcont
      by_cases h2 : 2 ≤ pipeCount k
      · obtain ⟨a, b, r, hsp⟩ := pySplitMax2_many k h2
        simp [attrScan, scanRaises, hcont, hmem, hsp, h2]
      · have h1 : pipeCount k = 1 := by
          have := (contains_pipe_iff k).mp hcont
          omega
        obtain ⟨a, v, hsp⟩ := pySplitMax2_one k h1
        by_cases hm : pyStr (pyGet attrs a) = v
        · have hkm : keyMatches attrs k = true := by
            rw [keyMatches, hsp]
            exact decide_eq_true hm
          simp [attrScan, scanRaises, hcont, hmem, hsp, hm, h1, h2, hkm, evaluate_power]
        · have hkm : keyMatches attrs k = false := by
            rw [keyMatches, hsp]
            exact decide_eq_false hm
          simp [attrScan, scanRaises, hcont, hmem, hsp, hm, h1, h2, hkm, ih]
    · have hnotmem : ¬('|' ∈ k) := by simpa using hcont
      have h0 : pipeCount k = 0 := by
        by_contra hne
        exact hcont ((contains_pipe_iff k).mpr hne)
      simp [attrScan, scanRaises, hcont, hnotmem, h0, ih]

/-- Claim C9 (amended): `FixedStrategy.calculate` raises exactly when the
state misses the exact-match branch and the in-order attribute scan reaches
a key with two or more `'|'` characters before any earlier key matches. -/
theorem fixed_scan_exception_amended (power : Option ℚ) (t : List (PyStr × ℚ)) (st : FState) :
    calculate power (some t) st = .error () ↔
      (pyGet t st.state = none ∧ scanRaises st.attributes t = true) := by
  unfold calculate
  cases hg : pyGet t st.state with
  | some p => simp [hg, evaluate_power]
  | none =>
    cases ha : attrScan st.attributes t with
    | error e =>
      cases e
      simp only [hg, ha]
      simpa using (attrScan_error_iff st.attributes t).mp ha
    | ok o =>
      have hs : scanRaises st.attributes t = false := by
        cases hsr : scanRaises st.attributes t
        · rfl
        · have hcontr := (attrScan_error_iff st.attributes t).mpr hsr
          rw [ha] at hcontr
          cases hcontr
      cases o <;> cases power <;> simp [hg, ha, hs, evaluate_power]

/-- Witness for the amended claim C9: a table whose malformed key `a|b|c`
is reached first, so the scan raises. -/
theorem fixed_scan_exception_amended_witness :
    calculate (some 12) (some [("a|b|c".toList, (7 : ℚ))])
      (⟨"other".toList, []⟩ : FState) = .error () := by
  have h := fixed_scan_exception_amended (some 12) [("a|b|c".toList, (7 : ℚ))]
    ⟨"other".toList, []⟩
  exact h.mpr (by refine ⟨by decide, by decide⟩)

/-- The malformed table for the claim C9 counterexample: a well-formed
matching key precedes the malformed key `a|b|c`. -/
def malformedTable : List (PyStr × ℚ) := [("attr|X".toList, 5), ("a|b|c".toList, 7)]

/-- A state missing the exact-match branch but matching `attr|X`. -/
def malformedFState : FState := ⟨"other".toList, [("attr".toList, "X".toList)]⟩

/-- Claim C9 (counterexample): the claim says any state missing the
exact-match branch raises when the table holds a key with two or more
`'|'`; but when an earlier key matches, `calculate` returns its power (5)
without raising. -/
theorem fixed_scan_exception_counterexample :
    calculate (some 12) (some malformedTable) malformedFState = .ok (some 5) ∧
    pyGet malformedTable malformedFState.state = none ∧
    2 ≤ pipeCount "a|b|c".toList := by
  refine ⟨rfl, by decide, by decide⟩

theorem find?_eq_some_iff_split {α : Type} (p : α → Bool) (x : α) :
    ∀ l : List α, l.find? p = some x ↔
      ∃ l1 l2, l = l1 ++ x :: l2 ∧ p x = true ∧ ∀ y ∈ l1, p y = false := by
  intro l
  induction l with
  | nil =>
    constructor
    · intro h; cases h
    · rintro ⟨l1, l2, heq, -, -⟩
      exact absurd heq (by simp)
  | cons a rest ih =>
    by_cases hpa : p a = true
    · rw [List.find?_cons_of_pos _ hpa]
      constructor
      · intro h
        injection h with h
        subst h
        exact ⟨[], rest, rfl, hpa, by intro y hy; exact absurd hy (List.not_mem_nil y)⟩
      · rintro ⟨l1, l2, heq, hpx, hall⟩
        cases l1 with
        | nil =>
          simp only [List.nil_append, List.cons.injEq] at heq
          rw [heq.1]
        | cons b l1' =>
          simp only [List.cons_append, List.cons.injEq] at heq
          have hfalse := hall b (List.mem_cons_self _ _)
          rw [heq.1] at hpa
          rw [hfalse] at hpa
          exact Bool.noConfusion hpa
    · rw [List.find?_cons_of_neg _ hpa]
      rw [ih]
      constructor
      · rintro ⟨l1, l2, heq, hpx, hall⟩
        refine ⟨a :: l1, l2, by rw [heq, List.cons_append], hpx, ?_⟩
        intro y hy
        rcases List.mem_cons.mp hy with rfl | hy'
        · cases hb : p y
          · rfl
          · exact absurd hb hpa
        · exact hall y hy'
      · rintro ⟨l1, l2, heq, hpx, hall⟩
        cases l1 with
        | nil =>
          simp only [List.nil_append, List.cons.injEq] at heq
          rw [← heq.1] at hpx
          exact absurd hpx hpa
        | cons b l1' =>
          simp only [List.cons_append, List.cons.injEq] at heq
          exact ⟨l1', l2, heq.2, hpx, fun y hy => hall y (List.mem_cons_of_mem _ hy)⟩

theorem contains_map_pyLower (k : String) :
    ∀ l : List String,
      (l.map pyLower).contains (pyLower k) = l.any (fun c => pyLower k == pyLower c) := by
  intro l
  induction l with
  | nil => rfl
  | cons c rest ih =>
    cases hb : pyLower k == pyLower c
    · simp [List.contains, List.elem, List.any, hb, ← ih]
    · simp [List.contains, List.elem, List.any, hb]

/-- Claim C6 (amended): `find_model` builds the five candidates (exact id,
slash-unescaped, lowercased, lowercased+unescaped, trailing parenthetical
content) as an unordered set, and returns the model of the first entry *in
the loader's listing order* whose lowercased key matches any lowercased
candidate — candidate priority does not decide ties; `none` when no entry
matches. -/
theorem model_resolution_amended (listing : List (String × MIndex))
    (manufacturer model res : String) :
    find_model listing manufacturer model = some res ↔
      ∃ models, pyGet listing (pyLower manufacturer) = some models ∧
        ∃ pre kv post, models = pre ++ kv :: post ∧ kv.2 = res ∧
          candidateMatch model kv.1 = true ∧
          ∀ kv' ∈ pre, candidateMatch model kv'.1 = false := by
  unfold find_model localFindModel
  cases hg : pyGet listing (pyLower manufacturer) with
  | none => simp [hg]
  | some models =>
    simp only [hg]
    by_cases he : models.isEmpty
    · have hm : models = [] := by
        cases models
        · rfl
        · simp [List.isEmpty] at he
      subst hm
      rw [if_pos he]
      constructor
      · intro h
        cases h
      · rintro ⟨m1, hm1, pre, kv, post, heq, -, -, -⟩
        injection hm1 with hm1
        rw [← hm1] at heq
        exact absurd heq (by simp)
    · rw [if_neg he]
      have hpred :
          (fun kv : String × String =>
            ((searchCandidates model).map pyLower).contains (pyLower kv.1)) =
          fun kv : String × String => candidateMatch model kv.1 := by
        funext kv
        rw [contains_map_pyLower]
        rfl
      rw [Option.map_eq_some', hpred]
      constructor
      · rintro ⟨kv, hfind, hres⟩
        obtain ⟨pre, post, heq, hpx, hall⟩ :=
          (find?_eq_some_iff_split _ kv models).mp hfind
        exact ⟨models, rfl, pre, kv, post, heq, hres, hpx, hall⟩
      · rintro ⟨m1, hmeq, pre, kv, post, heq, hres, hpx, hall⟩
        injection hmeq with hmeq
        rw [← hmeq] at heq
        exact ⟨kv, (find?_eq_some_iff_split _ kv models).mpr ⟨pre, post, heq, hpx, hall⟩,
          hres⟩

/-- The listing for the claim C6 counterexample: the loader's index lists
key `def` before key `abc (def)` (dict insertion order). -/
def exListing : List (String × MIndex) :=
  [("m", [("def", "def"), ("abc (def)", "ABC (def)")])]

/-- Claim C6 (counterexample): for model id `ABC (def)` the candidate set is
built as an unordered Python set, and the loader returns the first *index*
entry matching any candidate.  The exact-id candidate matches the indexed
model `ABC (def)`, so the claimed candidate-priority semantics returns
`ABC (def)`; the code returns `def`, the first matching entry in listing
order (matched via the trailing-parenthetical candidate). -/
theorem model_resolution_order_counterexample :
    find_model exListing "m" "ABC (def)" = some "def" ∧
    claimFindModel exListing "m" "ABC (def)" = some "ABC (def)" ∧
    ("def" : String) ≠ "ABC (def)" := by
  refine ⟨by decide, by decide, by decide⟩

/-- The parsed body of the failed (non-200) manifest response for C7. -/
def remoteDoc : LibDoc := some [("remote-corp", ["model-r"])]

/-- The bundled local copy of the manifest for C7. -/
def localDoc : LibDoc := some [("local-corp", ["model-l"])]

/-- Claim C7 (code evaluation at the failing input): on a non-200 response
whose body still parses as JSON, `load_library_json` finishes with the
*response body* as the library contents: the local-copy fallback read
inside the `if resp.status != 200` block is immediately overwritten by the
unconditional `self.library_contents = await resp.json()`, so the loader
does not end up with the bundled local manifest as the claim states. -/
theorem remote_manifest_fallback_failing_input :
    load_library_json 500 (Except.ok remoteDoc) localDoc = Except.ok remoteDoc ∧
    remoteDoc ≠ localDoc := by
  refine ⟨rfl, by decide⟩

/-- Claim C10: `RemoteLoader.load_model` returns `None` whenever a custom
directory is supplied, for every manifest state, cache state, download
outcome, file-read outcome, manufacturer and model — none of them are
consulted. -/
theorem remote_custom_directory_delegation
    (model_infos : List (String × RModelInfo)) (path_exists : Bool)
    (download : Except Unit Unit) (read_json : Except Unit ModelJson)
    (manufacturer model dir : String) :
    load_model model_infos path_exists download read_json manufacturer model (some dir) =
      .ok none := rfl

end Powercalc
